import Mathlib

/-!
Verification of the t2 push-to-talk transcription daemon.

We shallowly embed the session-protocol core of the repository:
* the transcript assembler (`internal/transcription/processor.go`),
* the streaming client's health tracking and response handling
  (`internal/transcription/assemblyai.go`),
* the recording gate inside the audio recorder (`audioStreamLoop` of the
  silence-detecting recorder),
* the orchestrator's release handler (`Daemon.OnRelease`).

Go `float64` values that are only compared, maxed and accumulated
(confidence scores, RMS loudness, durations) are modelled as rationals;
Go `int` fields as `Int`; the one-slot buffered termination channel as a
`Bool` flag.  Side effects on the transcription client performed by the
orchestrator are modelled as an explicit trace of calls.
-/

namespace T2

/-! ## Transcript assembler: `Processor` from processor.go -/

/-- State of `transcription.Processor`.  `sessionTerminated` models the
one-slot buffered channel: `true` iff a termination signal is pending. -/
structure Processor where
  currentTranscript : String
  lastTurnOrder : Int
  turnTranscripts : List (Int × String)
  finalTranscripts : List String
  sessionTerminated : Bool
  sessionActive : Bool
  resetCount : Nat
  bestPartialTranscript : String
  bestPartialConfidence : ℚ
  deriving DecidableEq

/-- `NewProcessor`. -/
def newProcessor : Processor :=
  { currentTranscript := ""
    lastTurnOrder := -1
    turnTranscripts := []
    finalTranscripts := []
    sessionTerminated := false
    sessionActive := false
    resetCount := 0
    bestPartialTranscript := ""
    bestPartialConfidence := 0 }

/-- Go map update `m[k] = v` on the association-list representation. -/
def mapInsert (l : List (Int × String)) (k : Int) (v : String) :
    List (Int × String) :=
  (k, v) :: l.filter (fun kv => kv.1 != k)

/-- The accumulation loop of `ProcessTranscript`:
`completeText := ""; for i, f := range finals { if i > 0 { completeText += " " }; completeText += f }`. -/
def joinSpace : List String → String
  | [] => ""
  | s :: rest => rest.foldl (fun acc t => acc ++ " " ++ t) s

/-- `Processor.ProcessTranscript`.  On a final transcript the text plus a
trailing space is appended to `finalTranscripts` and `currentTranscript`
is rebuilt by the join loop; on a partial, `currentTranscript` is
overwritten and the best partial is replaced whenever the new confidence
is strictly higher or the new text strictly longer.  `endOfTurn` is only
logged by the Go code and unused. -/
def processTranscript (p : Processor) (transcript : String) (turnOrder : Int)
    (isComplete : Bool) (endOfTurn : Bool) (confidence : ℚ) : Processor :=
  let _ := endOfTurn
  let lastTO := if turnOrder > p.lastTurnOrder then turnOrder else p.lastTurnOrder
  if isComplete then
    let finals := p.finalTranscripts ++ [transcript ++ " "]
    { p with
      finalTranscripts := finals
      currentTranscript := joinSpace finals
      turnTranscripts := mapInsert p.turnTranscripts turnOrder transcript
      lastTurnOrder := lastTO }
  else
    if confidence > p.bestPartialConfidence ∨
        transcript.length > p.bestPartialTranscript.length then
      { p with
        currentTranscript := transcript
        bestPartialTranscript := transcript
        bestPartialConfidence := confidence
        turnTranscripts := mapInsert p.turnTranscripts turnOrder transcript
        lastTurnOrder := lastTO }
    else
      { p with
        currentTranscript := transcript
        turnTranscripts := mapInsert p.turnTranscripts turnOrder transcript
        lastTurnOrder := lastTO }

/-- One inbound turn message as delivered to `ProcessTranscript`. -/
structure TurnMsg where
  transcript : String
  turnOrder : Int
  isComplete : Bool
  endOfTurn : Bool
  confidence : ℚ
  deriving DecidableEq

/-- Process one turn message. -/
def processOne (p : Processor) (m : TurnMsg) : Processor :=
  processTranscript p m.transcript m.turnOrder m.isComplete m.endOfTurn m.confidence

/-- Process a whole arrival sequence of turn messages. -/
def processAll (p : Processor) (ms : List TurnMsg) : Processor :=
  ms.foldl processOne p

/-- `Processor.Reset`: clears all transcript state, marks the session
active, bumps the reset counter, and drains a pending termination
signal. -/
def reset (p : Processor) : Processor :=
  { currentTranscript := ""
    lastTurnOrder := -1
    turnTranscripts := []
    finalTranscripts := []
    sessionTerminated := false
    sessionActive := true
    resetCount := p.resetCount + 1
    bestPartialTranscript := ""
    bestPartialConfidence := 0 }

/-- `Processor.SignalTermination`: non-blocking send on the one-slot
channel; the slot ends up occupied either way. -/
def signalTermination (p : Processor) : Processor :=
  { p with sessionTerminated := true }

/-- `Processor.ConsumeTranscriptWithFallback`: returns `(text, isFinal)`
and the post-call state.  Note which fields the Go code clears here:
the transcript fields, plus `sessionActive := false`; it does not touch
`resetCount` and does not drain `sessionTerminated`. -/
def consumeTranscriptWithFallback (p : Processor) : (String × Bool) × Processor :=
  let isFinal := !p.finalTranscripts.isEmpty
  let text :=
    if isFinal then p.currentTranscript
    else if p.bestPartialTranscript.length > 0 then p.bestPartialTranscript ++ " "
    else ""
  ((text, isFinal),
    { p with
      sessionActive := false
      currentTranscript := ""
      lastTurnOrder := -1
      turnTranscripts := []
      finalTranscripts := []
      bestPartialTranscript := ""
      bestPartialConfidence := 0 })

/-! Spec-side helper definitions used to state the assembler claims. -/

/-- The final-fragment texts of an arrival sequence, in arrival order. -/
def finalsOf (ms : List TurnMsg) : List String :=
  (ms.filter (fun m => m.isComplete)).map (fun m => m.transcript)

/-- The best-partial update rule of `ProcessTranscript`, isolated on a
`(text, confidence)` pair. -/
def bestStep (b : String × ℚ) (m : TurnMsg) : String × ℚ :=
  if m.confidence > b.2 ∨ m.transcript.length > b.1.length then
    (m.transcript, m.confidence)
  else b

/-- The tracked best partial after an arrival sequence, starting from the
reset state `("", 0)`. -/
def bestOf (ms : List TurnMsg) : String × ℚ :=
  ms.foldl bestStep ("", 0)

/-! ## Recording gate: session fields of `audio.Recorder` -/

/-- `SpeechState` from recorder.go. -/
inductive SpeechState where
  | waitingForSpeech
  | speechDetected
  deriving DecidableEq

/-- The per-session gate fields of `audio.Recorder`. -/
structure GateState where
  maxRMS : ℚ
  silenceChunks : Nat
  speechState : SpeechState
  prolongedSilence : Bool
  deriving DecidableEq

/-- `silenceThreshold` (150.0 in `NewRecorder`). -/
def silenceThreshold : ℚ := 150

/-- `maxSilenceChunks` (20 in `NewRecorder`). -/
def maxSilenceChunks : Nat := 20

/-- The gate fields as reset by `Recorder.Start`. -/
def gateStart : GateState :=
  { maxRMS := 0
    silenceChunks := 0
    speechState := SpeechState.waitingForSpeech
    prolongedSilence := false }

/-- The per-chunk gate update of `Recorder.audioStreamLoop`, as a function
of the chunk's RMS loudness: update the running maximum, count or reset
consecutive silence, transition to `SpeechDetected` on a loud chunk, and
set the sticky `prolongedSilence` flag when the counter reaches the limit
while still waiting for speech. -/
def gateStep (g : GateState) (chunkRMS : ℚ) : GateState :=
  let g1 := if chunkRMS > g.maxRMS then { g with maxRMS := chunkRMS } else g
  let g2 :=
    if chunkRMS < silenceThreshold then
      { g1 with silenceChunks := g1.silenceChunks + 1 }
    else
      { g1 with
        silenceChunks := 0
        speechState :=
          if g1.speechState = SpeechState.waitingForSpeech then
            SpeechState.speechDetected
          else g1.speechState }
  if g2.speechState = SpeechState.waitingForSpeech ∧
      g2.silenceChunks ≥ maxSilenceChunks then
    { g2 with prolongedSilence := true }
  else g2

/-- `shouldSendAudio := r.speechState == SpeechDetected || !r.prolongedSilence`,
evaluated after the gate update for the same chunk. -/
def shouldSendAudio (g : GateState) : Bool :=
  (g.speechState == SpeechState.speechDetected) || !g.prolongedSilence

/-! ## Orchestrator: `Daemon.OnRelease` -/

/-- `quickPressThreshold` (800 ms), in milliseconds. -/
def quickPressThreshold : ℚ := 800

/-- The daemon's low-audio constant `150.0` in `OnRelease`. -/
def lowAudioThreshold : ℚ := 150

/-- Calls `OnRelease` can make on the transcription client. -/
inductive ClientCall where
  | terminate
  | reportSuccess
  | reportFailure
  deriving DecidableEq

/-- The gate verdict implicit in `OnRelease`'s branch structure. -/
inductive Verdict where
  | tooShort
  | silent
  | proceed
  deriving DecidableEq

/-- The verdict evaluated at release: quick press first, then the
low-audio check `maxRMS < 150.0` (both silent sub-branches of `OnRelease`
test exactly this), otherwise proceed. -/
def releaseVerdict (g : GateState) (duration : ℚ) : Verdict :=
  if duration < quickPressThreshold then Verdict.tooShort
  else if g.maxRMS < lowAudioThreshold then Verdict.silent
  else Verdict.proceed

/-- `Daemon.OnRelease` after `recorder.Stop()`, as a state transformer on
the processor, with the gate state passed through unchanged (`Stop` does
not touch the gate fields) and the calls made on the transcription client
recorded as a trace.  `duration` is the press duration in milliseconds and
`pasteOk` the outcome of the paste collaborator. -/
def onRelease (p : Processor) (g : GateState) (duration : ℚ) (pasteOk : Bool) :
    Processor × GateState × List ClientCall :=
  if duration < quickPressThreshold then
    (p, g, [])
  else if g.prolongedSilence && decide (g.maxRMS < lowAudioThreshold) then
    (reset p, g, [])
  else if !g.prolongedSilence && decide (g.maxRMS < lowAudioThreshold) then
    (reset p, g, [])
  else
    let r := consumeTranscriptWithFallback p
    let p2 := reset r.2
    if r.1.1 ≠ "" then
      if pasteOk then (p2, g, [ClientCall.terminate, ClientCall.reportSuccess])
      else (p2, g, [ClientCall.terminate])
    else (p2, g, [ClientCall.terminate, ClientCall.reportFailure])

/-! ## Streaming client: health tracking and inbound handling -/

/-- Health-relevant state of `transcription.Client`. -/
structure Client where
  hasConn : Bool
  connectionHealth : Int
  sessionCount : Int
  failedSessions : Int
  deriving DecidableEq

/-- The health bookkeeping of a successful `Client.Connect`. -/
def connectReset (c : Client) : Client :=
  { c with
    hasConn := true
    connectionHealth := 100
    sessionCount := 0
    failedSessions := 0 }

/-- `Client.ReportSessionSuccess`. -/
def reportSessionSuccess (c : Client) : Client :=
  { c with
    sessionCount := c.sessionCount + 1
    failedSessions := 0
    connectionHealth :=
      if c.connectionHealth < 100 then
        let h := c.connectionHealth + 10
        if h > 100 then 100 else h
      else c.connectionHealth }

/-- `Client.ReportSessionFailure`. -/
def reportSessionFailure (c : Client) : Client :=
  { c with
    failedSessions := c.failedSessions + 1
    connectionHealth :=
      let h := c.connectionHealth - 15
      if h < 0 then 0 else h }

/-- `10 * time.Minute` in nanoseconds, the age bound in
`ConnectionNeedsRefresh`. -/
def tenMinutes : ℚ := 600000000000

/-- `Client.ConnectionNeedsRefresh`, with the connection age
(`time.Since(lastConnectionTime)`, in nanoseconds) passed as input. -/
def connectionNeedsRefresh (c : Client) (connectionAge : ℚ) : Bool :=
  if c.connectionHealth < 20 then true
  else if c.failedSessions ≥ 3 then true
  else if connectionAge > tenMinutes ∧ c.connectionHealth < 60 then true
  else false

/-- `Client.IsConnected`, with the outcome of the keepalive write passed
as input (`pingFails = true` models a failed write): on failure the
handle is discarded, health is zeroed, and `false` is returned. -/
def isConnected (c : Client) (pingFails : Bool) : Client × Bool :=
  if !c.hasConn then (c, false)
  else if pingFails then
    ({ c with hasConn := false, connectionHealth := 0 }, false)
  else (c, true)

/-- The fields of an inbound `Turn` JSON message that
`Client.handleResponses` reads, each optional as in the dynamic map. -/
structure TurnFields where
  transcript : Option String
  turn_is_formatted : Option Bool
  end_of_turn : Option Bool
  end_of_turn_confidence : Option ℚ
  deriving DecidableEq

/-- The `"Turn"` case of `Client.handleResponses`: the list of
`(text, isComplete, endOfTurn, confidence)` invocations of the registered
transcript callback caused by one inbound turn message.  The callback
fires only when the `transcript` field is a non-empty string; the other
fields default to `false` / `false` / `0`. -/
def handleTurn (m : TurnFields) : List (String × Bool × Bool × ℚ) :=
  match m.transcript with
  | some t =>
      if t ≠ "" then
        [(t, m.turn_is_formatted.getD false, m.end_of_turn.getD false,
          m.end_of_turn_confidence.getD 0)]
      else []
  | none => []

/-! ## Assembler lemmas -/

lemma processAll_append_one (p : Processor) (ys : List TurnMsg) (m : TurnMsg) :
    processAll p (ys ++ [m]) = processOne (processAll p ys) m := by
  simp [processAll, List.foldl_append]

lemma processOne_finalTranscripts (p : Processor) (m : TurnMsg) :
    (processOne p m).finalTranscripts =
      if m.isComplete then p.finalTranscripts ++ [m.transcript ++ " "]
      else p.finalTranscripts := by
  unfold processOne processTranscript
  cases m.isComplete
  · simp only [Bool.false_eq_true, if_false]
    split <;> rfl
  · simp

lemma processOne_currentTranscript_final (p : Processor) (m : TurnMsg)
    (h : m.isComplete = true) :
    (processOne p m).currentTranscript =
      joinSpace (p.finalTranscripts ++ [m.transcript ++ " "]) := by
  unfold processOne processTranscript
  simp [h]

lemma processOne_best_partial (p : Processor) (m : TurnMsg)
    (h : m.isComplete = false) :
    ((processOne p m).bestPartialTranscript, (processOne p m).bestPartialConfidence) =
      bestStep (p.bestPartialTranscript, p.bestPartialConfidence) m := by
  unfold processOne processTranscript bestStep
  simp [h]
  split <;> simp_all

lemma processAll_finalTranscripts (ms : List TurnMsg) :
    ∀ p : Processor, (processAll p ms).finalTranscripts =
      p.finalTranscripts ++ (finalsOf ms).map (fun s => s ++ " ") := by
  induction ms with
  | nil => intro p; simp [processAll, finalsOf]
  | cons m rest ih =>
      intro p
      have hstep : processAll p (m :: rest) = processAll (processOne p m) rest := by
        simp [processAll]
      rw [hstep, ih]
      rw [processOne_finalTranscripts]
      cases hm : m.isComplete <;> simp [finalsOf, hm]

lemma processAll_best_partial (ms : List TurnMsg) :
    ∀ p : Processor, (∀ m ∈ ms, m.isComplete = false) →
      ((processAll p ms).bestPartialTranscript,
        (processAll p ms).bestPartialConfidence) =
        ms.foldl bestStep (p.bestPartialTranscript, p.bestPartialConfidence) := by
  induction ms with
  | nil => intro p _; simp [processAll]
  | cons m rest ih =>
      intro p h
      have hm : m.isComplete = false := h m (List.mem_cons_self m rest)
      have hstep : processAll p (m :: rest) = processAll (processOne p m) rest := by
        simp [processAll]
      rw [hstep]
      have hrest : ∀ x ∈ rest, x.isComplete = false := fun x hx =>
        h x (List.mem_cons_of_mem m hx)
      rw [ih (processOne p m) hrest]
      have hb := processOne_best_partial p m hm
      simp only [List.foldl_cons]
      rw [show ((processOne p m).bestPartialTranscript,
            (processOne p m).bestPartialConfidence) =
          bestStep (p.bestPartialTranscript, p.bestPartialConfidence) m from hb]

lemma finalsOf_append_final (ys : List TurnMsg) (m : TurnMsg)
    (h : m.isComplete = true) :
    finalsOf (ys ++ [m]) = finalsOf ys ++ [m.transcript] := by
  simp [finalsOf, List.filter_append, h]

/-! ## Claim theorems: assembler -/

/-- Claim C1, counterexample.  Two final fragments "a" and "b" reconcile
to `"a  b "` (each fragment gets a trailing space and fragments are
joined by a further space), not to the single-space join `"a b"`; and a
partial "c" arriving after the last final overwrites the held transcript,
so the session returns `"c"` while still tagged final. -/
theorem finalJoin_cex :
    (consumeTranscriptWithFallback (processAll (reset newProcessor)
        [⟨"a", 0, true, true, 1⟩, ⟨"b", 1, true, true, 1⟩])).1 ≠ ("a b", true) ∧
    (consumeTranscriptWithFallback (processAll (reset newProcessor)
        [⟨"a", 0, true, true, 1⟩, ⟨"b", 1, true, true, 1⟩])).1 = ("a  b ", true) ∧
    (consumeTranscriptWithFallback (processAll (reset newProcessor)
        [⟨"a", 0, true, true, 1⟩, ⟨"b", 1, true, true, 1⟩,
         ⟨"c", 1, false, false, 1⟩])).1 ≠ ("a b", true) ∧
    (consumeTranscriptWithFallback (processAll (reset newProcessor)
        [⟨"a", 0, true, true, 1⟩, ⟨"b", 1, true, true, 1⟩,
         ⟨"c", 1, false, false, 1⟩])).1 = ("c", true) := by
  refine ⟨by decide, by decide, by decide, by decide⟩

/-- Claim C1, amended: if the last message of the session is final, the
transcript returned by `ConsumeTranscriptWithFallback` is the
concatenation, in arrival order and regardless of turn-order values, of
each final-fragment text with a trailing space appended, the fragments
being joined by one further space — and it is tagged final. -/
theorem finalJoin (p0 : Processor) (ys : List TurnMsg) (m : TurnMsg)
    (hm : m.isComplete = true) :
    (consumeTranscriptWithFallback (processAll (reset p0) (ys ++ [m]))).1 =
      (joinSpace ((finalsOf (ys ++ [m])).map (fun s => s ++ " ")), true) := by
  rw [processAll_append_one]
  have hq : (processAll (reset p0) ys).finalTranscripts =
      (finalsOf ys).map (fun s => s ++ " ") := by
    rw [processAll_finalTranscripts ys (reset p0)]; simp [reset]
  have hfin : (processOne (processAll (reset p0) ys) m).finalTranscripts =
      (finalsOf ys).map (fun s => s ++ " ") ++ [m.transcript ++ " "] := by
    rw [processOne_finalTranscripts, hm, if_pos rfl, hq]
  have hcur : (processOne (processAll (reset p0) ys) m).currentTranscript =
      joinSpace ((finalsOf ys).map (fun s => s ++ " ") ++ [m.transcript ++ " "]) := by
    rw [processOne_currentTranscript_final _ _ hm, hq]
  have hne : ((finalsOf ys).map (fun s => s ++ " ") ++ [m.transcript ++ " "]).isEmpty
      = false := by
    cases (finalsOf ys).map (fun s => s ++ " ") <;> rfl
  rw [finalsOf_append_final ys m hm]
  unfold consumeTranscriptWithFallback
  rw [hfin, hcur, hne]
  simp

/-- Claim C1 witness: a concrete two-final session with distinct
turn-order values. -/
theorem finalJoin_witness :
    (consumeTranscriptWithFallback (processAll (reset newProcessor)
        [⟨"a", 7, true, true, 1⟩, ⟨"b", 2, true, false, 1⟩])).1 = ("a  b ", true) := by
  have h := finalJoin newProcessor [⟨"a", 7, true, true, 1⟩] ⟨"b", 2, true, false, 1⟩ rfl
  rw [show ([⟨"a", 7, true, true, 1⟩] ++ [⟨"b", 2, true, false, 1⟩] :
      List TurnMsg) = [⟨"a", 7, true, true, 1⟩, ⟨"b", 2, true, false, 1⟩] from rfl] at h
  rw [h]
  decide

/-- Claim C2, counterexample.  With partials "hi" (confidence 9) then
"hello" (confidence 1), the update rule `confidence > best OR length >
best length` replaces "hi" by the longer, lower-confidence "hello", and
the fallback appends a trailing space — so the session returns
`("hello ", false)`, not the highest-confidence partial `"hi"`. -/
theorem partialFallback_cex :
    (consumeTranscriptWithFallback (processAll (reset newProcessor)
        [⟨"hi", 0, false, false, 9⟩, ⟨"hello", 0, false, false, 1⟩])).1 ≠
      ("hi", false) ∧
    (consumeTranscriptWithFallback (processAll (reset newProcessor)
        [⟨"hi", 0, false, false, 9⟩, ⟨"hello", 0, false, false, 1⟩])).1 =
      ("hello ", false) := by
  refine ⟨by decide, by decide⟩

/-- Claim C2, amended: if only partial messages are processed in a
session, `ConsumeTranscriptWithFallback` returns the tracked best partial
followed by a trailing space, tagged non-final (or `("", false)` when the
tracked best is empty), where the tracked best is replaced by each
incoming partial whose confidence is strictly higher than the current
best's or whose text is strictly longer than the current best's. -/
theorem partialFallback (p0 : Processor) (ms : List TurnMsg)
    (h : ∀ m ∈ ms, m.isComplete = false) :
    (consumeTranscriptWithFallback (processAll (reset p0) ms)).1 =
      ((if (bestOf ms).1.length > 0 then (bestOf ms).1 ++ " " else ""), false) := by
  have hnone : finalsOf ms = [] := by
    simp only [finalsOf, List.map_eq_nil_iff, List.filter_eq_nil_iff]
    intro m hm
    simp [h m hm]
  have hfin : (processAll (reset p0) ms).finalTranscripts = [] := by
    rw [processAll_finalTranscripts ms (reset p0)]; simp [reset, hnone]
  have hbest := processAll_best_partial ms (reset p0) h
  have hbt : (processAll (reset p0) ms).bestPartialTranscript = (bestOf ms).1 := by
    have := congrArg Prod.fst hbest
    simpa [bestOf, reset] using this
  unfold consumeTranscriptWithFallback
  rw [hfin, hbt]
  simp

/-- Claim C2 witness: the concrete two-partial session. -/
theorem partialFallback_witness :
    (consumeTranscriptWithFallback (processAll (reset newProcessor)
        [⟨"hi", 0, false, false, 9⟩, ⟨"hello", 0, false, false, 1⟩])).1 =
      ("hello ", false) := by
  have h := partialFallback newProcessor
      [⟨"hi", 0, false, false, 9⟩, ⟨"hello", 0, false, false, 1⟩] (by decide)
  rw [h]
  decide

/-- Claim C4, counterexample.  A pending termination signal survives
`ConsumeTranscriptWithFallback` but not `Reset`, so the post-consume
state differs from the post-reset state. -/
theorem consume_vs_reset_cex :
    (consumeTranscriptWithFallback (signalTermination newProcessor)).2.sessionTerminated
      = true ∧
    (reset (signalTermination newProcessor)).sessionTerminated = false ∧
    (consumeTranscriptWithFallback (signalTermination newProcessor)).2 ≠
      reset (signalTermination newProcessor) := by
  refine ⟨by decide, by decide, by decide⟩

/-- Claim C4, amended: `ConsumeTranscriptWithFallback` clears the same
transcript fields as `Reset` (current transcript, last turn order, turn
map, final fragments, best partial and its confidence), but unlike
`Reset` it sets `sessionActive` to `false` rather than `true`, leaves
`resetCount` unchanged, and does not drain a pending termination signal,
which therefore survives into the next session unless the orchestrator
calls `Reset` explicitly. -/
theorem consume_vs_reset (p : Processor) :
    (consumeTranscriptWithFallback p).2.currentTranscript = (reset p).currentTranscript ∧
    (consumeTranscriptWithFallback p).2.lastTurnOrder = (reset p).lastTurnOrder ∧
    (consumeTranscriptWithFallback p).2.turnTranscripts = (reset p).turnTranscripts ∧
    (consumeTranscriptWithFallback p).2.finalTranscripts = (reset p).finalTranscripts ∧
    (consumeTranscriptWithFallback p).2.bestPartialTranscript =
      (reset p).bestPartialTranscript ∧
    (consumeTranscriptWithFallback p).2.bestPartialConfidence =
      (reset p).bestPartialConfidence ∧
    (consumeTranscriptWithFallback p).2.sessionActive = false ∧
    (reset p).sessionActive = true ∧
    (consumeTranscriptWithFallback p).2.resetCount = p.resetCount ∧
    (reset p).resetCount = p.resetCount + 1 ∧
    (consumeTranscriptWithFallback p).2.sessionTerminated = p.sessionTerminated ∧
    (reset p).sessionTerminated = false := by
  simp [consumeTranscriptWithFallback, reset]

/-! ## Gate lemmas -/

lemma gateStep_silent_fields (g : GateState) (r : ℚ)
    (hr : r < silenceThreshold) (hw : g.speechState = SpeechState.waitingForSpeech) :
    (gateStep g r).speechState = SpeechState.waitingForSpeech ∧
    (gateStep g r).silenceChunks = g.silenceChunks + 1 ∧
    ((gateStep g r).prolongedSilence = true ↔
      (g.prolongedSilence = true ∨ maxSilenceChunks ≤ g.silenceChunks + 1)) := by
  unfold gateStep
  split <;> simp_all <;> split <;> simp_all

lemma gateStep_silent_maxRMS (g : GateState) (r : ℚ)
    (hr : r < silenceThreshold) (hg : g.maxRMS < silenceThreshold) :
    (gateStep g r).maxRMS < silenceThreshold := by
  unfold gateStep
  split <;> simp_all <;> (try split) <;> simp_all

lemma gateStep_prolonged_sticky (g : GateState) (r : ℚ)
    (h : g.prolongedSilence = true) : (gateStep g r).prolongedSilence = true := by
  unfold gateStep
  split <;> simp_all <;> (try split) <;> (try simp_all) <;> (try split) <;>
    (try simp_all)

lemma gateStep_speech_sticky (g : GateState) (r : ℚ)
    (h : g.speechState = SpeechState.speechDetected) :
    (gateStep g r).speechState = SpeechState.speechDetected := by
  unfold gateStep
  split <;> simp_all <;> split <;> simp_all

lemma foldl_speech_sticky (rs : List ℚ) :
    ∀ g : GateState, g.speechState = SpeechState.speechDetected →
      (rs.foldl gateStep g).speechState = SpeechState.speechDetected := by
  induction rs with
  | nil => intro g h; simpa using h
  | cons r rest ih =>
      intro g h
      simpa using ih (gateStep g r) (gateStep_speech_sticky g r h)

lemma silentFold (rs : List ℚ) :
    ∀ g : GateState, (∀ r ∈ rs, r < silenceThreshold) →
      g.speechState = SpeechState.waitingForSpeech → g.maxRMS < silenceThreshold →
      (rs.foldl gateStep g).speechState = SpeechState.waitingForSpeech ∧
      (rs.foldl gateStep g).maxRMS < silenceThreshold ∧
      (rs.foldl gateStep g).silenceChunks = g.silenceChunks + rs.length ∧
      ((rs.foldl gateStep g).prolongedSilence = true ↔
        (g.prolongedSilence = true ∨
          (1 ≤ rs.length ∧ maxSilenceChunks ≤ g.silenceChunks + rs.length))) := by
  induction rs with
  | nil => intro g _ hw hm; simp [hw, hm]
  | cons r rest ih =>
      intro g hall hw hm
      have hr : r < silenceThreshold := hall r (List.mem_cons_self r rest)
      have hrest : ∀ x ∈ rest, x < silenceThreshold := fun x hx =>
        hall x (List.mem_cons_of_mem r hx)
      have hstep := gateStep_silent_fields g r hr hw
      have hmax := gateStep_silent_maxRMS g r hr hm
      have hfold := ih (gateStep g r) hrest hstep.1 hmax
      simp only [List.foldl_cons]
      refine ⟨hfold.1, hfold.2.1, ?_, ?_⟩
      · rw [hfold.2.2.1, hstep.2.1]
        simp [List.length_cons]
        omega
      · rw [hfold.2.2.2, hstep.2.2, hstep.2.1]
        cases hp : g.prolongedSilence
        · simp [hp, List.length_cons]
          omega
        · simp [hp, List.length_cons]

/-! ## Claim theorems: gate and orchestrator -/

/-- Claim C3, counterexample.  A quick press (100 ms < 800 ms) after a
final fragment was recorded returns to idle without resetting the
assembler: the post-release assembler state still holds the final
fragment, which no reset state does. -/
theorem release_tooShort_cex :
    ((onRelease (processTranscript (reset newProcessor) "a" 0 true true 1)
        gateStart 100 true).1).finalTranscripts = ["a "] ∧
    (reset ((onRelease (processTranscript (reset newProcessor) "a" 0 true true 1)
        gateStart 100 true).1)).finalTranscripts = [] ∧
    (onRelease (processTranscript (reset newProcessor) "a" 0 true true 1)
        gateStart 100 true).1 ≠
      reset ((onRelease (processTranscript (reset newProcessor) "a" 0 true true 1)
        gateStart 100 true).1) := by
  refine ⟨by decide, by decide, by decide⟩

/-- Claim C3, amended: on release with verdict TooShort the orchestrator
returns to idle making no call to the transcription service, but leaves
the assembler state untouched (it is only reset at the next press); with
verdict Silent it resets the assembler and returns to idle with no
service call.  In both cases the gate fields are passed through unchanged
— they are reset by the next `Start`, not at release. -/
theorem release_gate_branches (p : Processor) (g : GateState) (d : ℚ)
    (pasteOk : Bool) :
    (d < quickPressThreshold → onRelease p g d pasteOk = (p, g, [])) ∧
    (¬d < quickPressThreshold → g.maxRMS < lowAudioThreshold →
      onRelease p g d pasteOk = (reset p, g, [])) := by
  constructor
  · intro h
    simp [onRelease, h]
  · intro h1 h2
    unfold onRelease
    rw [if_neg h1]
    cases hp : g.prolongedSilence <;> simp [h2, hp]

/-- Claim C3 witness: a quick press leaves the assembler untouched; a
long silent press resets it; neither produces a service call. -/
theorem release_gate_branches_witness :
    onRelease (signalTermination newProcessor) gateStart 100 true =
      (signalTermination newProcessor, gateStart, []) ∧
    onRelease (signalTermination newProcessor)
        ⟨50, 25, SpeechState.waitingForSpeech, true⟩ 1000 true =
      (reset (signalTermination newProcessor),
        ⟨50, 25, SpeechState.waitingForSpeech, true⟩, []) := by
  constructor
  · exact (release_gate_branches (signalTermination newProcessor) gateStart
      100 true).1 (by decide)
  · exact (release_gate_branches (signalTermination newProcessor)
      ⟨50, 25, SpeechState.waitingForSpeech, true⟩ 1000 true).2
      (by decide) (by decide)

/-- Claim C6, confirmed: over 25 frames all below the silence threshold,
the sticky `prolongedSilence` flag is still clear after 19 frames and set
after the 20th; for each of frames 21 through 25 the post-update forward
decision is negative; and the release verdict on the final gate state is
Silent (given the press was not a quick press). -/
theorem silent_session (rs : List ℚ) (hlen : rs.length = 25)
    (hsil : ∀ r ∈ rs, r < silenceThreshold) (d : ℚ)
    (hd : ¬d < quickPressThreshold) :
    ((rs.take 19).foldl gateStep gateStart).prolongedSilence = false ∧
    ((rs.take 20).foldl gateStep gateStart).prolongedSilence = true ∧
    (∀ k, 21 ≤ k → k ≤ 25 →
      shouldSendAudio ((rs.take k).foldl gateStep gateStart) = false) ∧
    releaseVerdict (rs.foldl gateStep gateStart) d = Verdict.silent := by
  have hstart2 : gateStart.maxRMS < silenceThreshold := by decide
  have htake : ∀ k : Nat, ∀ r ∈ rs.take k, r < silenceThreshold := fun k r hr =>
    hsil r (List.take_subset k rs hr)
  have hltake : ∀ k : Nat, k ≤ 25 → (rs.take k).length = k := by
    intro k hk
    simp [List.length_take, hlen]
    omega
  refine ⟨?_, ?_, ?_, ?_⟩
  · have h19 := silentFold (rs.take 19) gateStart (htake 19) rfl hstart2
    have hiff := h19.2.2.2
    rw [hltake 19 (by omega)] at hiff
    simp [maxSilenceChunks, gateStart] at hiff
    exact hiff
  · have h20 := silentFold (rs.take 20) gateStart (htake 20) rfl hstart2
    have hiff := h20.2.2.2
    rw [hltake 20 (by omega)] at hiff
    simp [maxSilenceChunks, gateStart] at hiff
    exact hiff
  · intro k h21 h25
    have hk := silentFold (rs.take k) gateStart (htake k) rfl hstart2
    have hiff := hk.2.2.2
    rw [hltake k (by omega)] at hiff
    simp [maxSilenceChunks, gateStart] at hiff
    have hprol : ((rs.take k).foldl gateStep gateStart).prolongedSilence = true :=
      hiff.mpr (by omega)
    simp [shouldSendAudio, hk.1, hprol]
  · have hfull := silentFold rs gateStart hsil rfl hstart2
    have hmax : (rs.foldl gateStep gateStart).maxRMS < lowAudioThreshold := hfull.2.1
    simp [releaseVerdict, hd, hmax]

/-- Claim C6 witness: 25 frames of RMS 50 with a 1000 ms press. -/
theorem silent_session_witness :
    (((List.replicate 25 (50 : ℚ)).take 19).foldl gateStep gateStart).prolongedSilence
      = false ∧
    (((List.replicate 25 (50 : ℚ)).take 20).foldl gateStep gateStart).prolongedSilence
      = true ∧
    shouldSendAudio (((List.replicate 25 (50 : ℚ)).take 23).foldl gateStep gateStart)
        = false ∧
    releaseVerdict ((List.replicate 25 (50 : ℚ)).foldl gateStep gateStart) 1000 =
      Verdict.silent := by
  have h := silent_session (List.replicate 25 (50 : ℚ)) (by decide)
    (by intro r hr; rw [List.eq_of_mem_replicate hr]; decide) 1000 (by decide)
  exact ⟨h.1, h.2.1, h.2.2.1 23 (by decide) (by decide), h.2.2.2⟩

/-- Claim C7, confirmed: a frame whose RMS loudness reaches the silence
threshold puts the gate in `SpeechDetected` with the consecutive-silence
counter reset to zero, and the phase stays `SpeechDetected` under every
subsequent frame sequence of the session. -/
theorem speech_monotone (g : GateState) (r : ℚ) (rest : List ℚ)
    (hr : ¬r < silenceThreshold) :
    (gateStep g r).speechState = SpeechState.speechDetected ∧
    (gateStep g r).silenceChunks = 0 ∧
    (rest.foldl gateStep (gateStep g r)).speechState =
      SpeechState.speechDetected := by
  have h1 : (gateStep g r).speechState = SpeechState.speechDetected ∧
      (gateStep g r).silenceChunks = 0 := by
    unfold gateStep
    split <;> simp_all <;> cases g.speechState <;> simp_all
  exact ⟨h1.1, h1.2, foldl_speech_sticky rest (gateStep g r) h1.1⟩

/-- Claim C7 witness: a loud frame from the start state, followed by a
mixed tail. -/
theorem speech_monotone_witness :
    (gateStep gateStart 200).speechState = SpeechState.speechDetected ∧
    (gateStep gateStart 200).silenceChunks = 0 ∧
    (([10, 300, 5] : List ℚ).foldl gateStep (gateStep gateStart 200)).speechState =
      SpeechState.speechDetected := by
  exact speech_monotone gateStart 200 [10, 300, 5] (by decide)

/-! ## Claim theorems: streaming client -/

/-- Claim C5, confirmed: `ConnectionNeedsRefresh` is true exactly when
health is below 20, or at least three consecutive failed sessions were
reported, or the connection is older than 10 minutes with health below
60 — in particular whenever three consecutive failures were reported,
regardless of health. -/
theorem needsRefresh_iff (c : Client) (age : ℚ) :
    connectionNeedsRefresh c age = true ↔
      (c.connectionHealth < 20 ∨ 3 ≤ c.failedSessions ∨
        (tenMinutes < age ∧ c.connectionHealth < 60)) := by
  unfold connectionNeedsRefresh
  by_cases h1 : c.connectionHealth < 20 <;>
    by_cases h2 : (3 : Int) ≤ c.failedSessions <;>
      by_cases h3 : tenMinutes < age ∧ c.connectionHealth < 60 <;>
        simp [h1, h2, h3]

/-- Claim C8, confirmed: success adds 10 to health capped at 100 and
clears the consecutive-failure counter; failure subtracts 15 floored at 0
and increments the counter; from a fresh connection, two successes then
one failure give health 100, 100, 100, 85 and failure counts 0, 0, 1. -/
theorem health_updates (c : Client) (h : c.connectionHealth ≤ 100) :
    (reportSessionSuccess c).connectionHealth = min (c.connectionHealth + 10) 100 ∧
    (reportSessionSuccess c).failedSessions = 0 ∧
    (reportSessionFailure c).connectionHealth = max (c.connectionHealth - 15) 0 ∧
    (reportSessionFailure c).failedSessions = c.failedSessions + 1 ∧
    (connectReset c).connectionHealth = 100 ∧
    (reportSessionSuccess (connectReset c)).connectionHealth = 100 ∧
    (reportSessionSuccess (reportSessionSuccess (connectReset c))).connectionHealth
      = 100 ∧
    (reportSessionFailure (reportSessionSuccess (reportSessionSuccess
      (connectReset c)))).connectionHealth = 85 ∧
    (connectReset c).failedSessions = 0 ∧
    (reportSessionSuccess (connectReset c)).failedSessions = 0 ∧
    (reportSessionSuccess (reportSessionSuccess (connectReset c))).failedSessions
      = 0 ∧
    (reportSessionFailure (reportSessionSuccess (reportSessionSuccess
      (connectReset c)))).failedSessions = 1 := by
  refine ⟨?_, ?_, ?_, ?_, ?_, ?_, ?_, ?_, ?_, ?_, ?_, ?_⟩ <;>
    simp [reportSessionSuccess, reportSessionFailure, connectReset] <;> omega

/-- Claim C8 witness: a client at health 95 with two prior failures. -/
theorem health_updates_witness :
    (reportSessionSuccess ⟨true, 95, 0, 2⟩).connectionHealth = min (95 + 10) 100 ∧
    (reportSessionFailure (reportSessionSuccess (reportSessionSuccess
      (connectReset ⟨true, 95, 0, 2⟩)))).connectionHealth = 85 ∧
    (reportSessionFailure (reportSessionSuccess (reportSessionSuccess
      (connectReset ⟨true, 95, 0, 2⟩)))).failedSessions = 1 := by
  have h := health_updates ⟨true, 95, 0, 2⟩ (by decide)
  exact ⟨h.1, h.2.2.2.2.2.2.2.1, h.2.2.2.2.2.2.2.2.2.2.2⟩

/-- Claim C9, counterexample.  A `Turn` message whose transcript field is
the empty string does not invoke the transcript callback at all, rather
than exactly once. -/
theorem turnCallback_cex :
    handleTurn ⟨some "", some true, some true, some 1⟩ = [] ∧
    (handleTurn ⟨some "", some true, some true, some 1⟩).length ≠ 1 := by
  refine ⟨by decide, by decide⟩

/-- Claim C9, amended: for every inbound `Turn` message whose transcript
field is present and non-empty, the transcript callback is invoked
exactly once with that message's values (missing boolean fields default
to `false`, missing confidence to 0); a `Turn` message with a missing or
empty transcript invokes the callback zero times. -/
theorem turnCallback (m : TurnFields) :
    (∀ t, m.transcript = some t → t ≠ "" →
      handleTurn m = [(t, m.turn_is_formatted.getD false, m.end_of_turn.getD false,
        m.end_of_turn_confidence.getD 0)]) ∧
    ((m.transcript = none ∨ m.transcript = some "") → handleTurn m = []) := by
  constructor
  · intro t ht hne
    simp [handleTurn, ht, hne]
  · rintro (h | h) <;> simp [handleTurn, h]

/-- Claim C9 witness: a non-empty turn fires once; an empty one does
not. -/
theorem turnCallback_witness :
    handleTurn ⟨some "hi", some true, none, some 1⟩ = [("hi", true, false, 1)] ∧
    handleTurn ⟨some "", some true, some true, some 1⟩ = [] := by
  refine ⟨?_, ?_⟩
  · have h := (turnCallback ⟨some "hi", some true, none, some 1⟩).1 "hi" rfl
      (by decide)
    rw [h]
    decide
  · exact (turnCallback ⟨some "", some true, some true, some 1⟩).2 (Or.inr rfl)

/-- Claim C10, confirmed: when the keepalive write fails, `IsConnected`
discards the handle, zeroes the connection health and returns false, and
an immediately following `ConnectionNeedsRefresh` returns true whatever
the connection age. -/
theorem probe_side_effect (c : Client) (age : ℚ) (h : c.hasConn = true) :
    (isConnected c true).2 = false ∧
    (isConnected c true).1.hasConn = false ∧
    (isConnected c true).1.connectionHealth = 0 ∧
    connectionNeedsRefresh (isConnected c true).1 age = true := by
  simp [isConnected, h, connectionNeedsRefresh]

/-- Claim C10 witness: a healthy connected client whose keepalive write
fails. -/
theorem probe_side_effect_witness :
    (isConnected ⟨true, 100, 4, 0⟩ true).2 = false ∧
    (isConnected ⟨true, 100, 4, 0⟩ true).1.hasConn = false ∧
    (isConnected ⟨true, 100, 4, 0⟩ true).1.connectionHealth = 0 ∧
    connectionNeedsRefresh (isConnected ⟨true, 100, 4, 0⟩ true).1 0 = true := by
  exact probe_side_effect ⟨true, 100, 4, 0⟩ 0 rfl

end T2
